import Mathlib

/-!
Verification development for the audio-note repository (AudioMind).

The TypeScript sources are shallowly embedded below:
  * `server/storage.ts`   — the in-memory CRUD store (`MemStorage`);
  * `server/routes.ts`    — the byte-range audio handler and the background
                            ingestion pipeline `processAudioFile`;
  * `server/services/openai.ts` — the `generateSummary` wrapper.

External effects (UUID generation, clock reads, the two OpenAI network calls)
are passed in as explicit parameters: a network call that can throw becomes an
`Except String` outcome parameter.  JavaScript builtins used by the sources
(`parseInt`, `String.prototype.includes`, `toLowerCase`, `split`,
`JSON.parse`, the stable `Array.prototype.sort`) are modelled as executable
Lean functions; simplifications are noted at each definition.
-/

/-- Model of checking that `pat` occurs at the head of `cs`
(the matching step of `String.prototype.includes`). -/
def strStartsWith : List Char → List Char → Bool
  | _, [] => true
  | [], _ :: _ => false
  | c :: cs, d :: ds => c == d && strStartsWith cs ds

/-- Does `cs` contain `pat` as a contiguous run?  Mirrors the substring
search of `String.prototype.includes`. -/
def charsContains : List Char → List Char → Bool
  | [], pat => pat.isEmpty
  | c :: cs, pat => strStartsWith (c :: cs) pat || charsContains cs pat

/-- Model of the JavaScript `s.includes(pat)`. -/
def containsSub (s pat : String) : Bool :=
  charsContains s.toList pat.toList

/-- Remove the first occurrence of `pat` from `cs`; models
`s.replace(/pat/, "")` with a non-global literal pattern. -/
def removeFirst : List Char → List Char → List Char
  | [], _ => []
  | c :: cs, pat =>
    if strStartsWith (c :: cs) pat then (c :: cs).drop pat.length
    else c :: removeFirst cs pat

/-- Model of `range.replace(/bytes=/, "")` from the audio route. -/
def removeBytesEq (s : String) : String :=
  String.mk (removeFirst s.toList "bytes=".toList)

/-- Model of the JavaScript `s.toLowerCase()` (ASCII case folding; the
sources only compare ASCII text). -/
def lowerStr (s : String) : String :=
  String.mk (s.toList.map Char.toLower)

/-- Model of the JavaScript `s.split("-")` on the character list. -/
def splitOnDash (cs : List Char) : List (List Char) :=
  cs.foldr
    (fun c acc =>
      if c == '-' then [] :: acc
      else
        match acc with
        | a :: rest => (c :: a) :: rest
        | [] => [[c]])
    [[]]

/-- Model of the JavaScript `s.split("-")`. -/
def splitDashStr (s : String) : List String :=
  (splitOnDash s.toList).map String.mk

/-- Numeric value of a run of decimal digit characters. -/
def digitsToNat (ds : List Char) : Nat :=
  ds.foldl (fun acc c => acc * 10 + (c.toNat - 48)) 0

/-- Model of the JavaScript `parseInt(s, 10)`: skip leading whitespace,
accept an optional sign, read the longest run of decimal digits, ignore any
trailing characters; `none` models the `NaN` result when no digit is read. -/
def parseIntJS (s : String) : Option Int :=
  let core : Bool → List Char → Option Int := fun neg rest =>
    let ds := rest.takeWhile Char.isDigit
    if ds.isEmpty then none
    else some (if neg then -(digitsToNat ds : Int) else (digitsToNat ds : Int))
  match s.toList.dropWhile Char.isWhitespace with
  | '-' :: rest => core true rest
  | '+' :: rest => core false rest
  | cs => core false cs

/-! ### A model of JSON values and of `JSON.parse`

`generateSummary` feeds the provider response through `JSON.parse`.  JSON
numbers are kept as their raw source text (the fields the code reads are
strings and arrays, so no numeric computation is ever performed on them). -/

inductive Json where
  | null : Json
  | bool : Bool → Json
  | num : String → Json
  | str : String → Json
  | arr : List Json → Json
  | obj : List (String × Json) → Json
deriving Repr, BEq

/-- The `\x7b` character (opening curly brace). -/
def lbrace : Char := Char.ofNat 123

/-- The `\x7d` character (closing curly brace). -/
def rbrace : Char := Char.ofNat 125

/-- JSON insignificant whitespace. -/
def jsonWs (c : Char) : Bool :=
  c == ' ' || c == '\t' || c == '\n' || c == '\r'

def skipWs (cs : List Char) : List Char :=
  cs.dropWhile jsonWs

/-- Value of one hexadecimal digit. -/
def hexVal (c : Char) : Option Nat :=
  if c.isDigit then some (c.toNat - 48)
  else if 'a' ≤ c && c ≤ 'f' then some (c.toNat - 87)
  else if 'A' ≤ c && c ≤ 'F' then some (c.toNat - 55)
  else none

/-- Parse the body of a JSON string after the opening quote, handling the
escape sequences of the JSON grammar. -/
def parseStrBody : Nat → List Char → List Char → Except String (String × List Char)
  | 0, _, _ => .error "out of fuel"
  | _ + 1, [], _ => .error "unterminated string"
  | fuel + 1, c :: cs, acc =>
    if c == '"' then .ok (String.mk acc.reverse, cs)
    else if c == '\\' then
      match cs with
      | [] => .error "bad escape"
      | e :: cs2 =>
        if e == 'u' then
          match cs2 with
          | h1 :: h2 :: h3 :: h4 :: cs3 =>
            match hexVal h1, hexVal h2, hexVal h3, hexVal h4 with
            | some v1, some v2, some v3, some v4 =>
              parseStrBody fuel cs3 (Char.ofNat (((v1 * 16 + v2) * 16 + v3) * 16 + v4) :: acc)
            | _, _, _, _ => .error "bad unicode escape"
          | _ => .error "bad unicode escape"
        else
          match (if e == '"' then some '"'
                 else if e == '\\' then some '\\'
                 else if e == '/' then some '/'
                 else if e == 'b' then some (Char.ofNat 8)
                 else if e == 'f' then some (Char.ofNat 12)
                 else if e == 'n' then some '\n'
                 else if e == 'r' then some '\r'
                 else if e == 't' then some '\t'
                 else none) with
          | some d => parseStrBody fuel cs2 (d :: acc)
          | none => .error "bad escape"
    else parseStrBody fuel cs (c :: acc)

/-- Fractional part of a JSON number. -/
def parseFrac : List Char → Except String (List Char × List Char)
  | '.' :: rest =>
    let fd := rest.takeWhile Char.isDigit
    if fd.isEmpty then .error "bad number"
    else .ok ('.' :: fd, rest.drop fd.length)
  | cs => .ok ([], cs)

/-- Exponent part of a JSON number. -/
def parseExp : List Char → Except String (List Char × List Char)
  | [] => .ok ([], [])
  | c :: rest =>
    if c == 'e' || c == 'E' then
      let (sg, rest2) : List Char × List Char :=
        match rest with
        | '+' :: r2 => (['+'], r2)
        | '-' :: r2 => (['-'], r2)
        | _ => ([], rest)
      let ed := rest2.takeWhile Char.isDigit
      if ed.isEmpty then .error "bad number"
      else .ok (c :: (sg ++ ed), rest2.drop ed.length)
    else .ok ([], c :: rest)

/-- Parse a JSON number, returning its raw source text. -/
def parseNumRaw (cs : List Char) : Except String (String × List Char) := do
  let (sign, cs1) : List Char × List Char :=
    match cs with
    | '-' :: rest => (['-'], rest)
    | _ => ([], cs)
  let ds := cs1.takeWhile Char.isDigit
  if ds.isEmpty then throw "bad number"
  else if ds.length > 1 && ds.headD '0' == '0' then throw "bad number"
  else
    let cs2 := cs1.drop ds.length
    let (frac, cs3) ← parseFrac cs2
    let (ex, cs4) ← parseExp cs3
    pure (String.mk (sign ++ ds ++ frac ++ ex), cs4)

mutual

/-- Parse one JSON value (fuel-indexed recursive descent). -/
def parseVal : Nat → List Char → Except String (Json × List Char)
  | 0, _ => .error "out of fuel"
  | fuel + 1, cs =>
    match skipWs cs with
    | [] => .error "unexpected end"
    | c :: rest =>
      if c == '"' then
        match parseStrBody (fuel + 1) rest [] with
        | .ok (s, cs2) => .ok (.str s, cs2)
        | .error e => .error e
      else if c == '[' then
        match skipWs rest with
        | ']' :: cs2 => .ok (.arr [], cs2)
        | cs2 => parseElems fuel cs2 []
      else if c == lbrace then
        match skipWs rest with
        | c2 :: cs2 =>
          if c2 == rbrace then .ok (.obj [], cs2)
          else parseMembers fuel (c2 :: cs2) []
        | [] => .error "unexpected end"
      else if strStartsWith (c :: rest) "true".toList then .ok (.bool true, (c :: rest).drop 4)
      else if strStartsWith (c :: rest) "false".toList then .ok (.bool false, (c :: rest).drop 5)
      else if strStartsWith (c :: rest) "null".toList then .ok (.null, (c :: rest).drop 4)
      else
        match parseNumRaw (c :: rest) with
        | .ok (raw, cs2) => .ok (.num raw, cs2)
        | .error e => .error e

/-- Parse the remaining elements of a non-empty JSON array. -/
def parseElems : Nat → List Char → List Json → Except String (Json × List Char)
  | 0, _, _ => .error "out of fuel"
  | fuel + 1, cs, acc =>
    match parseVal fuel cs with
    | .error e => .error e
    | .ok (v, cs2) =>
      match skipWs cs2 with
      | ',' :: cs3 => parseElems fuel cs3 (v :: acc)
      | ']' :: cs3 => .ok (.arr (v :: acc).reverse, cs3)
      | _ => .error "expected comma or close bracket"

/-- Parse the remaining members of a non-empty JSON object. -/
def parseMembers : Nat → List Char → List (String × Json) → Except String (Json × List Char)
  | 0, _, _ => .error "out of fuel"
  | fuel + 1, cs, acc =>
    match skipWs cs with
    | [] => .error "unexpected end"
    | c :: rest =>
      if c == '"' then
        match parseStrBody (fuel + 1) rest [] with
        | .error e => .error e
        | .ok (k, cs2) =>
          match skipWs cs2 with
          | ':' :: cs3 =>
            match parseVal fuel cs3 with
            | .error e => .error e
            | .ok (v, cs4) =>
              match skipWs cs4 with
              | ',' :: cs5 => parseMembers fuel cs5 ((k, v) :: acc)
              | c5 :: cs5 =>
                if c5 == rbrace then .ok (.obj ((k, v) :: acc).reverse, cs5)
                else .error "expected comma or close brace"
              | [] => .error "unexpected end"
          | _ => .error "expected colon"
      else .error "expected string key"

end

/-- Model of the JavaScript `JSON.parse`: parse one value and require only
whitespace to remain.  The fuel bound is generous; running out of fuel is
reported as a parse error. -/
def jsonParse (s : String) : Except String Json :=
  match parseVal (2 * s.length + 8) s.toList with
  | .error e => .error e
  | .ok (v, rest) => if (skipWs rest).isEmpty then .ok v else .error "unexpected trailing characters"

/-- Property lookup on a parsed JSON value, as JavaScript sees it: on an
object the last duplicate key wins; on any non-object the result is
`undefined`, modelled as `none`. -/
def jsonLookup : Json → String → Option Json
  | .obj fields, k => (fields.reverse.find? (fun p => p.1 == k)).map Prod.snd
  | _, _ => none

/-- Is a JSON number (kept as raw text) the number zero? -/
def numIsZero (raw : String) : Bool :=
  (raw.toList.takeWhile (fun c => c != 'e' && c != 'E')).all
    (fun c => !c.isDigit || c == '0')

/-- JavaScript truthiness of a parsed JSON value (`undefined` is handled by
the callers via `Option`). -/
def jsTruthy : Json → Bool
  | .null => false
  | .bool b => b
  | .num raw => !numIsZero raw
  | .str s => !s.isEmpty
  | .arr _ => true
  | .obj _ => true

/-! ### `server/services/openai.ts` — `generateSummary` -/

/-- Result record of `generateSummary`.  The TypeScript annotation promises
`{ summary: string; keywords: string[] }`, but the code assigns whatever
JSON values survive `result.summary || default` and the `Array.isArray`
check, so the model keeps them as `Json`. -/
structure SummaryResult where
  summary : Json
  keywords : List Json
deriving Repr, BEq

/-- `response.choices[0].message.content || "\x7b\x7d"`: a `null` or empty
message content falls back to the empty-object text. -/
def effectiveContent (content : Option String) : String :=
  match content with
  | some s => if s.isEmpty then "\x7b\x7d" else s
  | none => "\x7b\x7d"

/-- `result.summary || "Summary could not be generated"`. -/
def extractSummary (j : Json) : Json :=
  match jsonLookup j "summary" with
  | some v => if jsTruthy v then v else Json.str "Summary could not be generated"
  | none => Json.str "Summary could not be generated"

/-- `Array.isArray(result.keywords) ? result.keywords : []`. -/
def extractKeywords (j : Json) : List Json :=
  match jsonLookup j "keywords" with
  | some (.arr xs) => xs
  | _ => []

/-- `generateSummary` from `server/services/openai.ts`.  The chat-completions
network call is passed in as its outcome: `.error e` is a thrown provider
error with message `e`, `.ok content` is a response whose single message has
the given content (`none` for a `null` content).  A throw anywhere inside the
`try` block — including a `JSON.parse` failure — is caught and re-thrown
with the combined message. -/
def generateSummary (transcriptionText : String)
    (apiOutcome : Except String (Option String)) : Except String SummaryResult :=
  match apiOutcome with
  | .error e => .error ("Failed to generate summary: " ++ e)
  | .ok content =>
    match jsonParse (effectiveContent content) with
    | .error e => .error ("Failed to generate summary: " ++ e)
    | .ok j => .ok { summary := extractSummary j, keywords := extractKeywords j }

/-! ### `shared/schema.ts` — the data model

Timestamps are modelled as `Nat` (milliseconds since the epoch); nullable
columns are `Option`; the `keywords` jsonb column is a list of strings as
declared by the schema. -/

structure User where
  id : String
  username : String
  password : String
deriving Repr, DecidableEq

structure AudioContent where
  id : String
  userId : String
  title : String
  source : Option String
  fileName : String
  filePath : String
  duration : Option Int
  fileSize : Option Int
  mimeType : Option String
  transcriptionStatus : String
  transcriptionText : Option String
  aiSummary : Option String
  keywords : List String
  progress : Int
  createdAt : Nat
  lastAccessedAt : Option Nat
deriving Repr, DecidableEq

structure Highlight where
  id : String
  audioContentId : String
  userId : String
  text : String
  startTime : Int
  endTime : Int
  color : String
  note : Option String
  createdAt : Option Nat
deriving Repr, DecidableEq

structure TranscriptSegment where
  id : String
  audioContentId : String
  startTime : Int
  endTime : Int
  text : String
  confidence : Option Int
  sequenceNumber : Int
deriving Repr, DecidableEq

/-- `InsertAudioContent` (the fields picked by `insertAudioContentSchema`). -/
structure InsertAudioContent where
  title : String
  source : Option String
  fileName : String
  filePath : String
  duration : Option Int
  fileSize : Option Int
  mimeType : Option String
deriving Repr, DecidableEq

/-- `InsertHighlight` (the fields picked by `insertHighlightSchema`). -/
structure InsertHighlight where
  audioContentId : String
  text : String
  startTime : Int
  endTime : Int
  color : Option String
  note : Option String
deriving Repr, DecidableEq

/-- `InsertTranscriptSegment`. -/
structure InsertTranscriptSegment where
  audioContentId : String
  startTime : Int
  endTime : Int
  text : String
  confidence : Option Int
  sequenceNumber : Int
deriving Repr, DecidableEq

/-- A `Partial<AudioContent>` update object: `none` means the field is
absent from the update; for a nullable column, `some none` sets the field
to `null`. -/
structure AudioContentUpdate where
  id : Option String := none
  userId : Option String := none
  title : Option String := none
  source : Option (Option String) := none
  fileName : Option String := none
  filePath : Option String := none
  duration : Option (Option Int) := none
  fileSize : Option (Option Int) := none
  mimeType : Option (Option String) := none
  transcriptionStatus : Option String := none
  transcriptionText : Option (Option String) := none
  aiSummary : Option (Option String) := none
  keywords : Option (List String) := none
  progress : Option Int := none
  createdAt : Option Nat := none
  lastAccessedAt : Option (Option Nat) := none
deriving Repr, DecidableEq

/-- The spread `\x7b ...content, ...updates \x7d`: fields present in the
update replace the stored ones, every other field is kept. -/
def applyUpdate (c : AudioContent) (u : AudioContentUpdate) : AudioContent :=
  { id := u.id.getD c.id
    userId := u.userId.getD c.userId
    title := u.title.getD c.title
    source := u.source.getD c.source
    fileName := u.fileName.getD c.fileName
    filePath := u.filePath.getD c.filePath
    duration := u.duration.getD c.duration
    fileSize := u.fileSize.getD c.fileSize
    mimeType := u.mimeType.getD c.mimeType
    transcriptionStatus := u.transcriptionStatus.getD c.transcriptionStatus
    transcriptionText := u.transcriptionText.getD c.transcriptionText
    aiSummary := u.aiSummary.getD c.aiSummary
    keywords := u.keywords.getD c.keywords
    progress := u.progress.getD c.progress
    createdAt := u.createdAt.getD c.createdAt
    lastAccessedAt := u.lastAccessedAt.getD c.lastAccessedAt }

/-! ### JavaScript `Map` as an insertion-ordered association list

`Map.set` on an existing key replaces the value but keeps the original
insertion position; `Map.values()` iterates in insertion order. -/

def mapGet (m : List (String × α)) (k : String) : Option α :=
  (m.find? (fun p => p.1 == k)).map Prod.snd

def mapSet : List (String × α) → String → α → List (String × α)
  | [], k, v => [(k, v)]
  | (k1, v1) :: rest, k, v =>
    if k1 == k then (k, v) :: rest else (k1, v1) :: mapSet rest k v

/-- `Map.delete`: returns whether the key was present, and the map without
it. -/
def mapDelete : List (String × α) → String → Bool × List (String × α)
  | [], _ => (false, [])
  | (k1, v1) :: rest, k =>
    if k1 == k then (true, rest)
    else
      let r := mapDelete rest k
      (r.1, (k1, v1) :: r.2)

/-- `Array.from(map.values())`. -/
def mapValues (m : List (String × α)) : List α :=
  m.map Prod.snd

/-! ### `server/storage.ts` — `MemStorage` -/

structure MemStorage where
  users : List (String × User)
  audioContent : List (String × AudioContent)
  highlights : List (String × Highlight)
  transcriptSegments : List (String × TranscriptSegment)
deriving Repr, DecidableEq

/-- `new MemStorage()`. -/
def emptyStorage : MemStorage :=
  { users := [], audioContent := [], highlights := [], transcriptSegments := [] }

def getAudioContent (s : MemStorage) (id : String) : Option AudioContent :=
  mapGet s.audioContent id

/-- Sort key of `getAudioContentByUser`:
`new Date(x.lastAccessedAt || 0).getTime()`. -/
def recencyKey (c : AudioContent) : Nat :=
  c.lastAccessedAt.getD 0

/-- The ordering realised by the comparator
`(a, b) => key(b) - key(a)`: descending by `recencyKey`. -/
def recentFirst (a b : AudioContent) : Prop :=
  recencyKey b ≤ recencyKey a

instance : DecidableRel recentFirst := fun a b =>
  inferInstanceAs (Decidable (recencyKey b ≤ recencyKey a))

instance : IsTotal AudioContent recentFirst :=
  ⟨fun a b => le_total (recencyKey b) (recencyKey a)⟩

instance : IsTrans AudioContent recentFirst :=
  ⟨fun _ _ _ hab hbc => le_trans hbc hab⟩

/-- `getAudioContentByUser`: filter by owner, then sort by most recently
accessed first.  JavaScript `Array.prototype.sort` is stable, so it is
modelled by the stable `List.insertionSort` under `recentFirst`. -/
def getAudioContentByUser (s : MemStorage) (userId : String) : List AudioContent :=
  List.insertionSort recentFirst
    ((mapValues s.audioContent).filter (fun c => c.userId == userId))

/-- `createAudioContent`; `newId` is the generated UUID and `now` the clock
reading for the two timestamps. -/
def createAudioContent (s : MemStorage) (newId : String) (now : Nat)
    (userId : String) (ins : InsertAudioContent) : AudioContent × MemStorage :=
  let content : AudioContent :=
    { id := newId
      userId := userId
      title := ins.title
      source := ins.source
      fileName := ins.fileName
      filePath := ins.filePath
      duration := ins.duration
      fileSize := ins.fileSize
      mimeType := ins.mimeType
      transcriptionStatus := "pending"
      transcriptionText := none
      aiSummary := none
      keywords := []
      progress := 0
      createdAt := now
      lastAccessedAt := some now }
  (content, { s with audioContent := mapSet s.audioContent newId content })

def updateAudioContent (s : MemStorage) (id : String) (u : AudioContentUpdate) :
    Option AudioContent × MemStorage :=
  match mapGet s.audioContent id with
  | none => (none, s)
  | some content =>
    let updatedContent := applyUpdate content u
    (some updatedContent, { s with audioContent := mapSet s.audioContent id updatedContent })

def deleteAudioContent (s : MemStorage) (id : String) : Bool × MemStorage :=
  let r := mapDelete s.audioContent id
  (r.1, { s with audioContent := r.2 })

/-- `searchAudioContent`: one combined match over the four text fields, on
an optional field `x?.toLowerCase().includes(q)` is `false` when `x` is
`null`. -/
def matchesQuery (lowerQuery : String) (c : AudioContent) : Bool :=
  containsSub (lowerStr c.title) lowerQuery ||
  (match c.source with
   | some t => containsSub (lowerStr t) lowerQuery
   | none => false) ||
  (match c.transcriptionText with
   | some t => containsSub (lowerStr t) lowerQuery
   | none => false) ||
  (match c.aiSummary with
   | some t => containsSub (lowerStr t) lowerQuery
   | none => false)

def searchAudioContent (s : MemStorage) (userId : String) (query : String) :
    List AudioContent :=
  let lowerQuery := lowerStr query
  (mapValues s.audioContent).filter
    (fun c => c.userId == userId && matchesQuery lowerQuery c)

def getHighlight (s : MemStorage) (id : String) : Option Highlight :=
  mapGet s.highlights id

/-- `createHighlight`: `highlight.color || "yellow"` and
`highlight.note || null` (an empty string is falsy). -/
def createHighlight (s : MemStorage) (newId : String) (now : Nat)
    (userId : String) (ins : InsertHighlight) : Highlight × MemStorage :=
  let newHighlight : Highlight :=
    { id := newId
      audioContentId := ins.audioContentId
      userId := userId
      text := ins.text
      startTime := ins.startTime
      endTime := ins.endTime
      color := match ins.color with
               | some c => if c.isEmpty then "yellow" else c
               | none => "yellow"
      note := match ins.note with
              | some n => if n.isEmpty then none else some n
              | none => none
      createdAt := some now }
  (newHighlight, { s with highlights := mapSet s.highlights newId newHighlight })

def deleteHighlight (s : MemStorage) (id : String) : Bool × MemStorage :=
  let r := mapDelete s.highlights id
  (r.1, { s with highlights := r.2 })

/-- `createTranscriptSegment`: `segment.confidence || null`
(a confidence of `0` is falsy and stored as `null`). -/
def createTranscriptSegment (s : MemStorage) (newId : String)
    (ins : InsertTranscriptSegment) : TranscriptSegment × MemStorage :=
  let newSegment : TranscriptSegment :=
    { id := newId
      audioContentId := ins.audioContentId
      startTime := ins.startTime
      endTime := ins.endTime
      text := ins.text
      confidence := match ins.confidence with
                    | some v => if v = 0 then none else some v
                    | none => none
      sequenceNumber := ins.sequenceNumber }
  (newSegment, { s with transcriptSegments := mapSet s.transcriptSegments newId newSegment })

/-- `deleteTranscriptSegments`: collect the entries whose
`audioContentId` matches, delete each of them, and return `true`
(unconditionally — the source ends with `return true`). -/
def deleteTranscriptSegments (s : MemStorage) (audioContentId : String) :
    Bool × MemStorage :=
  let victims :=
    (s.transcriptSegments.filter (fun p => p.2.audioContentId == audioContentId)).map Prod.fst
  let m := victims.foldl (fun acc k => (mapDelete acc k).2) s.transcriptSegments
  (true, { s with transcriptSegments := m })

/-! ### `server/routes.ts` — the ingestion pipeline -/

/-- The declared success payload of `generateSummary` as the pipeline
consumes it: `\x7b summary, keywords \x7d` with the TypeScript types. -/
structure SummaryPayload where
  summary : String
  keywords : List String
deriving Repr, DecidableEq

/-- The friendlier message substituted for quota/rate-limit errors. -/
def quotaMessage : String :=
  "OpenAI quota exceeded. Please add credits to your OpenAI account."

/-- The substring match on the caught transcription error message:
`message.includes("quota") || message.includes("429")`. -/
def transcriptionErrorText (e : String) : String :=
  if containsSub e "quota" || containsSub e "429" then quotaMessage
  else "Transcription failed"

/-- `duration ? Math.round(duration) : null`: a zero (or absent) duration is
falsy and stored as `null`.  Durations are modelled as already-integral. -/
def roundedDuration (d : Option Int) : Option Int :=
  match d with
  | some v => if v = 0 then none else some v
  | none => none

/-- The background job `processAudioFile`, as the list of successive store
states (one entry per await point that writes to the store, starting with
the initial store).  The two network calls appear as their outcomes:
`transcribeOutcome` is the result of `transcribeAudio` (text and optional
duration, or the message of the thrown error) and `summaryOutcome` the
result of `generateSummary`.  The store operations themselves never throw,
so the outer catch-all branch is unreachable in this model. -/
def processAudioFileTrace (s : MemStorage) (contentId : String)
    (transcribeOutcome : Except String (String × Option Int))
    (summaryOutcome : Except String SummaryPayload) : List MemStorage :=
  let s1 := (updateAudioContent s contentId { transcriptionStatus := some "processing" }).2
  match transcribeOutcome with
  | .ok (text, duration) =>
    let s2 := (updateAudioContent s1 contentId
      { transcriptionStatus := some "completed"
        transcriptionText := some (some text)
        duration := some (roundedDuration duration) }).2
    match summaryOutcome with
    | .ok payload =>
      let s3 := (updateAudioContent s2 contentId
        { aiSummary := some (some payload.summary)
          keywords := some payload.keywords }).2
      [s, s1, s2, s3]
    | .error _ => [s, s1, s2]
  | .error e =>
    let s2 := (updateAudioContent s1 contentId
      { transcriptionStatus := some "error"
        transcriptionText := some (some ("Error: " ++ transcriptionErrorText e)) }).2
    [s, s1, s2]

/-- The store state after `processAudioFile` finishes. -/
def processAudioFile (s : MemStorage) (contentId : String)
    (transcribeOutcome : Except String (String × Option Int))
    (summaryOutcome : Except String SummaryPayload) : MemStorage :=
  (processAudioFileTrace s contentId transcribeOutcome summaryOutcome).getLastD s

/-! ### `server/routes.ts` — the `GET /api/audio/:id` byte-range handler -/

/-- The status line and headers the handler writes (`writeHead`). -/
structure AudioHeadResponse where
  status : Nat
  contentRange : Option String
  acceptRanges : String
  contentLength : Int
  contentType : String
deriving Repr, DecidableEq

/-- `start`/`end` extraction from the split header value:
`parseInt(parts[0], 10)` and `parts[1] ? parseInt(parts[1], 10) :
fileSize - 1` (an absent or empty second part is falsy).  `none` models the
`NaN` outcomes, which flow into the stream creation below. -/
def rangeEnds (fileSize : Nat) (parts : List String) : Option (Int × Int) :=
  match parseIntJS (parts.getD 0 "") with
  | none => none
  | some s =>
    let p1 := parts.getD 1 ""
    if p1.isEmpty then some (s, (fileSize : Int) - 1)
    else
      match parseIntJS p1 with
      | none => none
      | some e => some (s, e)

/-- `range.replace(/bytes=/, "").split("-")` followed by `rangeEnds`. -/
def parseRangeHeader (fileSize : Nat) (r : String) : Option (Int × Int) :=
  rangeEnds fileSize (splitDashStr (removeBytesEq r))

/-- The `Content-Range` header value `bytes s-e/fileSize`. -/
def rangeContentRange (s e : Int) (fileSize : Nat) : String :=
  "bytes " ++ toString s ++ "-" ++ toString e ++ "/" ++ toString fileSize

/-- The response of the route: either a head written by `writeHead`
(followed by the streamed body), or the catch-all
`res.status(500).json(\x7b message: "Failed to serve audio file" \x7d)`. -/
inductive AudioResponse where
  | head : AudioHeadResponse → AudioResponse
  | serverError : AudioResponse
deriving Repr, DecidableEq

/-- The HTTP status of an `AudioResponse` (`serverError` is the 500
answer of the route's catch block). -/
def AudioResponse.status : AudioResponse → Nat
  | .head h => h.status
  | .serverError => 500

/-- Option validation of Node's `fs.createReadStream(path, \x7b start, end \x7d)`
(called at routes.ts:93, before `writeHead`): `start` and `end` must be
integers ≥ 0 with `start ≤ end`, otherwise the constructor throws
`ERR_OUT_OF_RANGE` synchronously; a `NaN` offset fails the same
validation.  In the embedding the `NaN` case is the `none` branch of
`parseRangeHeader`, so this predicate handles the numeric offsets. -/
def createReadStreamValid (s e : Int) : Bool :=
  0 ≤ s && 0 ≤ e && s ≤ e

/-- The response of `GET /api/audio/:id` for an existing record whose file
has `fileSize` bytes, as a function of the `Range` request header.
Without a header the route streams the whole file with status `200`.
With a header it parses `start`/`end` (never clamping either against
`fileSize`) and calls `fs.createReadStream` BEFORE writing the head: when
the offsets fail the stream constructor's validation (a `NaN` parse or an
inverted range) the constructor throws and the catch answers `500`;
otherwise the route writes status `206` with
`Content-Length = end - start + 1`. -/
def handleAudioRequest (fileSize : Nat) (mimeType : String)
    (range : Option String) : AudioResponse :=
  match range with
  | none =>
    .head { status := 200
            contentRange := none
            acceptRanges := "bytes"
            contentLength := (fileSize : Int)
            contentType := mimeType }
  | some r =>
    match parseRangeHeader fileSize r with
    | none => .serverError
    | some (s, e) =>
      if createReadStreamValid s e then
        .head { status := 206
                contentRange := some (rangeContentRange s e fileSize)
                acceptRanges := "bytes"
                contentLength := e - s + 1
                contentType := mimeType }
      else .serverError

/-! ### Helper lemmas -/

theorem strStartsWith_refl (l : List Char) : strStartsWith l l = true := by
  induction l with
  | nil => rfl
  | cons c cs ih => simp [strStartsWith, ih]

theorem charsContains_append_self (p m : List Char) :
    charsContains (p ++ m) m = true := by
  induction p with
  | nil =>
    cases m with
    | nil => rfl
    | cons c cs => simp [charsContains, strStartsWith_refl]
  | cons c cs ih => simp [charsContains, ih]

/-- A string always contains its own suffix. -/
theorem containsSub_append (p m : String) : containsSub (p ++ m) m = true := by
  simpa [containsSub] using charsContains_append_self p.toList m.toList

theorem mapGet_mapSet_self (m : List (String × α)) (k : String) (v : α) :
    mapGet (mapSet m k v) k = some v := by
  induction m with
  | nil => simp [mapGet, mapSet, List.find?]
  | cons p rest ih =>
    obtain ⟨k1, v1⟩ := p
    by_cases h : k1 = k
    · subst h
      simp [mapGet, mapSet, List.find?]
    · have hb : (k1 == k) = false := beq_eq_false_iff_ne.mpr h
      simpa [mapGet, mapSet, hb, List.find?] using ih

theorem mapGet_mapSet_ne (m : List (String × α)) (k k2 : String) (v : α)
    (h : k2 ≠ k) : mapGet (mapSet m k v) k2 = mapGet m k2 := by
  have hb : (k == k2) = false := beq_eq_false_iff_ne.mpr (fun hk => h hk.symm)
  induction m with
  | nil => simp [mapGet, mapSet, List.find?, hb]
  | cons p rest ih =>
    obtain ⟨k1, v1⟩ := p
    by_cases h1 : k1 = k
    · subst h1
      simp [mapGet, mapSet, List.find?, hb]
    · have hb1 : (k1 == k) = false := beq_eq_false_iff_ne.mpr h1
      by_cases h2 : k1 = k2
      · subst h2
        simp [mapGet, mapSet, hb1, List.find?]
      · have hb2 : (k1 == k2) = false := beq_eq_false_iff_ne.mpr h2
        simpa [mapGet, mapSet, hb1, hb2, List.find?] using ih

theorem mapDelete_fst (m : List (String × α)) (k : String) :
    (mapDelete m k).1 = (mapGet m k).isSome := by
  induction m with
  | nil => simp [mapDelete, mapGet, List.find?]
  | cons p rest ih =>
    obtain ⟨k1, v1⟩ := p
    by_cases h : k1 = k
    · subst h
      simp [mapDelete, mapGet, List.find?]
    · have hb : (k1 == k) = false := beq_eq_false_iff_ne.mpr h
      simpa [mapDelete, mapGet, hb, List.find?] using ih

/-- Key observation for a record found by `updateAudioContent`: the store it
returns holds the merged record under the same key. -/
theorem updateAudioContent_found {s : MemStorage} {id : String} {c : AudioContent}
    (u : AudioContentUpdate) (h : mapGet s.audioContent id = some c) :
    updateAudioContent s id u =
      (some (applyUpdate c u),
       { s with audioContent := mapSet s.audioContent id (applyUpdate c u) }) := by
  simp [updateAudioContent, h]

/-- Filtering on one value of the sort key commutes with `orderedInsert`
under `recentFirst`: the inserted element lands in front of every stored
element with the same key.  This is the stability of the insertion. -/
theorem orderedInsert_filter_recency (x : AudioContent) (l : List AudioContent) (k : Nat) :
    (List.orderedInsert recentFirst x l).filter (fun a => recencyKey a == k) =
      if recencyKey x == k then
        x :: l.filter (fun a => recencyKey a == k)
      else l.filter (fun a => recencyKey a == k) := by
  induction l with
  | nil =>
    simp only [List.orderedInsert, List.filter]
    by_cases hx : (recencyKey x == k) = true
    · simp [hx]
    · simp [hx]
  | cons b bs ih =>
    by_cases hr : recentFirst x b
    · rw [List.orderedInsert_of_le recentFirst bs hr]
      by_cases hx : (recencyKey x == k) = true
      · simp [List.filter_cons, hx]
      · simp [List.filter_cons, hx]
    · have hstep : List.orderedInsert recentFirst x (b :: bs) =
          b :: List.orderedInsert recentFirst x bs := by
        simp [List.orderedInsert, hr]
      rw [hstep]
      by_cases hx : (recencyKey x == k) = true
      · have hxk : recencyKey x = k := by simpa using hx
        have hbk : (recencyKey b == k) = false := by
          have hgt : recencyKey x < recencyKey b := by
            have := hr
            unfold recentFirst at this
            omega
          have : recencyKey b ≠ k := by omega
          simpa using this
        simp [List.filter_cons, hbk, ih, hx]
      · simp [List.filter_cons, ih, hx]

/-- Stability of the whole sort: for every value of the sort key, the sorted
output lists the elements with that key in their original order. -/
theorem insertionSort_filter_recency (l : List AudioContent) (k : Nat) :
    (List.insertionSort recentFirst l).filter (fun a => recencyKey a == k) =
      l.filter (fun a => recencyKey a == k) := by
  induction l with
  | nil => rfl
  | cons x xs ih =>
    simp only [List.insertionSort, orderedInsert_filter_recency, ih, List.filter_cons]

/-! ### Status traces of the ingestion pipeline -/

/-- The transcription status stored for `id` (as the HTTP surface would
read it). -/
def statusAt (s : MemStorage) (id : String) : Option String :=
  (mapGet s.audioContent id).map AudioContent.transcriptionStatus

/-- The statuses of `id` along a list of store states. -/
def statusTrace (l : List MemStorage) (id : String) : List (Option String) :=
  l.map (fun st => statusAt st id)

/-- The record exists and its status is one of the four documented values. -/
def allowedStatus (o : Option String) : Prop :=
  o = some "pending" ∨ o = some "processing" ∨ o = some "completed" ∨ o = some "error"

instance : DecidablePred allowedStatus := fun o => by
  unfold allowedStatus
  infer_instance

/-- The record exists and its status is terminal. -/
def terminalStatus (o : Option String) : Prop :=
  o = some "completed" ∨ o = some "error"

instance : DecidablePred terminalStatus := fun o => by
  unfold terminalStatus
  infer_instance

/-- Once a status in the trace is terminal, every later status equals it. -/
def terminalStable (l : List (Option String)) : Prop :=
  ∀ i : Fin l.length, ∀ j : Fin l.length, i.val ≤ j.val →
    terminalStatus (l.get i) → l.get j = l.get i

instance (l : List (Option String)) : Decidable (terminalStable l) := by
  unfold terminalStable
  infer_instance

/-! ### Concrete fixtures used by the witnesses -/

/-- A sample upload, as the upload route builds it. -/
def demoInsert : InsertAudioContent :=
  { title := "Lecture 1"
    source := none
    fileName := "lec1.mp3"
    filePath := "uploads/lec1"
    duration := none
    fileSize := some 1000
    mimeType := some "audio/mpeg" }

/-- The record created for `demoInsert`. -/
def demoContent : AudioContent :=
  (createAudioContent emptyStorage "id1" 5 "user-123" demoInsert).1

/-- The store holding exactly `demoContent`. -/
def demoStore : MemStorage :=
  (createAudioContent emptyStorage "id1" 5 "user-123" demoInsert).2

/-! ### Claims about the ingestion pipeline -/

/-- The update written by `PATCH /api/audio-content/:id/progress`:
`\x7b progress, lastAccessedAt: new Date() \x7d`. -/
def progressRouteUpdate (progress : Int) (now : Nat) : AudioContentUpdate :=
  { progress := some progress
    lastAccessedAt := some (some now) }

/-- The update written by `POST /api/audio-content/:id/summary`:
`\x7b aiSummary, keywords \x7d`. -/
def summaryRouteUpdate (summary : String) (keywords : List String) : AudioContentUpdate :=
  { aiSummary := some (some summary)
    keywords := some keywords }

/-- An update that does not name `transcriptionStatus` leaves the stored
status unchanged. -/
theorem statusAt_update_of_none (s2 : MemStorage) (id : String) (u : AudioContentUpdate)
    (hu : u.transcriptionStatus = none) :
    statusAt (updateAudioContent s2 id u).2 id = statusAt s2 id := by
  cases h : mapGet s2.audioContent id with
  | none => simp [updateAudioContent, h]
  | some c =>
    simp [statusAt, updateAudioContent, h, mapGet_mapSet_self, applyUpdate, hu]

/-- Statuses along the pipeline trace: membership in the documented set and
terminal stability.  Split out of the claim theorem so the route-frame
conjuncts can be attached separately. -/
theorem pipeline_status_core (s : MemStorage) (contentId : String) (c : AudioContent)
    (tr : Except String (String × Option Int)) (sm : Except String SummaryPayload)
    (hget : mapGet s.audioContent contentId = some c)
    (hpending : c.transcriptionStatus = "pending") :
    (∀ o ∈ statusTrace (processAudioFileTrace s contentId tr sm) contentId, allowedStatus o) ∧
    terminalStable (statusTrace (processAudioFileTrace s contentId tr sm) contentId) := by
  cases tr with
  | ok payload =>
    obtain ⟨text, dur⟩ := payload
    cases sm with
    | ok p =>
      have htrace : statusTrace
          (processAudioFileTrace s contentId (Except.ok (text, dur)) (Except.ok p)) contentId =
          [some "pending", some "processing", some "completed", some "completed"] := by
        simp [processAudioFileTrace, statusTrace, statusAt, updateAudioContent, hget,
          mapGet_mapSet_self, applyUpdate, hpending]
      rw [htrace]
      exact ⟨by decide, by decide⟩
    | error e =>
      have htrace : statusTrace
          (processAudioFileTrace s contentId (Except.ok (text, dur)) (Except.error e)) contentId =
          [some "pending", some "processing", some "completed"] := by
        simp [processAudioFileTrace, statusTrace, statusAt, updateAudioContent, hget,
          mapGet_mapSet_self, applyUpdate, hpending]
      rw [htrace]
      exact ⟨by decide, by decide⟩
  | error e =>
    have htrace : statusTrace
        (processAudioFileTrace s contentId (Except.error e) sm) contentId =
        [some "pending", some "processing", some "error"] := by
      simp [processAudioFileTrace, statusTrace, statusAt, updateAudioContent, hget,
        mapGet_mapSet_self, applyUpdate, hpending]
    rw [htrace]
    exact ⟨by decide, by decide⟩

/-- Claim C1: for every record driven by the ingestion pipeline (created in
state `pending`), the stored `transcriptionStatus` at every step of the
pipeline is one of pending, processing, completed, error; once the status
is `completed` or `error` no later pipeline step changes it, and the other
in-scope writes (the progress and summary routes) never change a stored
status at all. -/
theorem pipeline_status_invariant (s : MemStorage) (contentId : String) (c : AudioContent)
    (tr : Except String (String × Option Int)) (sm : Except String SummaryPayload)
    (hget : mapGet s.audioContent contentId = some c)
    (hpending : c.transcriptionStatus = "pending") :
    (∀ o ∈ statusTrace (processAudioFileTrace s contentId tr sm) contentId, allowedStatus o) ∧
    terminalStable (statusTrace (processAudioFileTrace s contentId tr sm) contentId) ∧
    (∀ (s2 : MemStorage) (p : Int) (now : Nat),
      statusAt (updateAudioContent s2 contentId (progressRouteUpdate p now)).2 contentId =
        statusAt s2 contentId) ∧
    (∀ (s2 : MemStorage) (sum : String) (kws : List String),
      statusAt (updateAudioContent s2 contentId (summaryRouteUpdate sum kws)).2 contentId =
        statusAt s2 contentId) := by
  refine ⟨(pipeline_status_core s contentId c tr sm hget hpending).1,
    (pipeline_status_core s contentId c tr sm hget hpending).2, ?_, ?_⟩
  · exact fun s2 p now => statusAt_update_of_none s2 contentId _ rfl
  · exact fun s2 sum kws => statusAt_update_of_none s2 contentId _ rfl

theorem pipeline_status_invariant_witness :
    allowedStatus ((statusTrace
      (processAudioFileTrace demoStore "id1" (Except.ok ("hello", none)) (Except.error "boom"))
      "id1").getD 0 none) ∧
    allowedStatus ((statusTrace
      (processAudioFileTrace demoStore "id1" (Except.ok ("hello", none)) (Except.error "boom"))
      "id1").getD 1 none) ∧
    allowedStatus ((statusTrace
      (processAudioFileTrace demoStore "id1" (Except.ok ("hello", none)) (Except.error "boom"))
      "id1").getD 2 none) ∧
    terminalStable (statusTrace
      (processAudioFileTrace demoStore "id1" (Except.ok ("hello", none)) (Except.error "boom"))
      "id1") := by
  have h := pipeline_status_invariant demoStore "id1" demoContent
    (Except.ok ("hello", none)) (Except.error "boom") rfl rfl
  exact ⟨h.1 _ (by decide), h.1 _ (by decide), h.1 _ (by decide), h.2.1⟩

/-- Claim C2: when transcription succeeds but summary generation throws,
the resulting record is `completed` with the transcription text stored,
while `aiSummary` stays null and `keywords` stay unset; the summary
failure does not revert or alter the completed status. -/
theorem pipeline_summary_failure (s : MemStorage) (contentId : String) (c : AudioContent)
    (text : String) (dur : Option Int) (e : String)
    (hget : mapGet s.audioContent contentId = some c)
    (hsum : c.aiSummary = none) (hkw : c.keywords = []) :
    ∃ c2, mapGet (processAudioFile s contentId (Except.ok (text, dur))
        (Except.error e)).audioContent contentId = some c2 ∧
      c2.transcriptionStatus = "completed" ∧
      c2.transcriptionText = some text ∧
      c2.aiSummary = none ∧
      c2.keywords = [] := by
  have hfinal : mapGet (processAudioFile s contentId (Except.ok (text, dur))
      (Except.error e)).audioContent contentId =
      some (applyUpdate (applyUpdate c { transcriptionStatus := some "processing" })
        { transcriptionStatus := some "completed"
          transcriptionText := some (some text)
          duration := some (roundedDuration dur) }) := by
    simp [processAudioFile, processAudioFileTrace, updateAudioContent, hget,
      mapGet_mapSet_self, List.getLastD]
  exact ⟨_, hfinal, by simp [applyUpdate], by simp [applyUpdate],
    by simp [applyUpdate, hsum], by simp [applyUpdate, hkw]⟩

theorem pipeline_summary_failure_witness :
    (mapGet (processAudioFile demoStore "id1" (Except.ok ("hello world", none))
        (Except.error "provider down")).audioContent "id1").map
      AudioContent.transcriptionStatus = some "completed" ∧
    (mapGet (processAudioFile demoStore "id1" (Except.ok ("hello world", none))
        (Except.error "provider down")).audioContent "id1").map
      AudioContent.transcriptionText = some (some "hello world") ∧
    (mapGet (processAudioFile demoStore "id1" (Except.ok ("hello world", none))
        (Except.error "provider down")).audioContent "id1").map
      AudioContent.aiSummary = some none ∧
    (mapGet (processAudioFile demoStore "id1" (Except.ok ("hello world", none))
        (Except.error "provider down")).audioContent "id1").map
      AudioContent.keywords = some [] := by
  obtain ⟨c2, hc, h1, h2, h3, h4⟩ :=
    pipeline_summary_failure demoStore "id1" demoContent "hello world" none
      "provider down" rfl rfl rfl
  rw [hc]
  simp [h1, h2, h3, h4]

/-- Claim C3: when the transcription call throws, the record moves to
status `error`; if the thrown message mentions "quota" or "429" the stored
text carries the quota-exceeded message, otherwise it carries the generic
"Transcription failed" message. -/
theorem pipeline_transcription_error (s : MemStorage) (contentId : String) (c : AudioContent)
    (e : String) (sm : Except String SummaryPayload)
    (hget : mapGet s.audioContent contentId = some c) :
    ∃ c2, mapGet (processAudioFile s contentId (Except.error e) sm).audioContent contentId =
        some c2 ∧
      c2.transcriptionStatus = "error" ∧
      c2.transcriptionText = some ("Error: " ++ transcriptionErrorText e) ∧
      ((containsSub e "quota" || containsSub e "429") = true →
        transcriptionErrorText e = quotaMessage ∧
        containsSub ("Error: " ++ transcriptionErrorText e) quotaMessage = true) ∧
      ((containsSub e "quota" || containsSub e "429") = false →
        transcriptionErrorText e = "Transcription failed" ∧
        containsSub ("Error: " ++ transcriptionErrorText e) "Transcription failed" = true) := by
  have hfinal : mapGet (processAudioFile s contentId (Except.error e) sm).audioContent
      contentId =
      some (applyUpdate (applyUpdate c { transcriptionStatus := some "processing" })
        { transcriptionStatus := some "error"
          transcriptionText := some (some ("Error: " ++ transcriptionErrorText e)) }) := by
    simp [processAudioFile, processAudioFileTrace, updateAudioContent, hget,
      mapGet_mapSet_self, List.getLastD]
  refine ⟨_, hfinal, by simp [applyUpdate], by simp [applyUpdate], ?_, ?_⟩
  · intro h
    have ht : transcriptionErrorText e = quotaMessage := by
      simp [transcriptionErrorText, h]
    refine ⟨ht, ?_⟩
    rw [ht]
    exact containsSub_append "Error: " quotaMessage
  · intro h
    have ht : transcriptionErrorText e = "Transcription failed" := by
      simp [transcriptionErrorText, h]
    refine ⟨ht, ?_⟩
    rw [ht]
    exact containsSub_append "Error: " "Transcription failed"

theorem pipeline_transcription_error_witness :
    (mapGet (processAudioFile demoStore "id1"
        (Except.error "Request failed with status code 429")
        (Except.error "unused")).audioContent "id1").map
      AudioContent.transcriptionStatus = some "error" ∧
    (mapGet (processAudioFile demoStore "id1"
        (Except.error "Request failed with status code 429")
        (Except.error "unused")).audioContent "id1").map
      AudioContent.transcriptionText = some (some ("Error: " ++ quotaMessage)) ∧
    containsSub ("Error: " ++ quotaMessage) quotaMessage = true := by
  obtain ⟨c2, hc, h1, h2, h3, _⟩ :=
    pipeline_transcription_error demoStore "id1" demoContent
      "Request failed with status code 429" (Except.error "unused") rfl
  obtain ⟨ht, hcont⟩ := h3 (by decide)
  rw [hc]
  rw [ht] at h2 hcont
  simp [h1, h2, hcont]

/-! ### Claims about the byte-range audio handler -/

/-- Claim C4: `Range: bytes=0-99` on a 1000-byte file yields status 206,
`Content-Range: bytes 0-99/1000` and `Content-Length: 100`; in general,
whenever a chunk is served for a parsed range `a-b` (the offsets pass the
stream constructor, so the route reaches `writeHead`), it is served with
status 206 and chunk length `b - a + 1`. -/
theorem range_request_headers :
    (handleAudioRequest 1000 "audio/mpeg" (some "bytes=0-99") =
      AudioResponse.head
        { status := 206
          contentRange := some "bytes 0-99/1000"
          acceptRanges := "bytes"
          contentLength := 100
          contentType := "audio/mpeg" }) ∧
    (∀ (fileSize : Nat) (mime r : String) (a b : Int),
      parseRangeHeader fileSize r = some (a, b) →
      createReadStreamValid a b = true →
      handleAudioRequest fileSize mime (some r) =
        AudioResponse.head
          { status := 206
            contentRange := some (rangeContentRange a b fileSize)
            acceptRanges := "bytes"
            contentLength := b - a + 1
            contentType := mime }) := by
  refine ⟨rfl, ?_⟩
  intro fileSize mime r a b h hv
  simp [handleAudioRequest, h, hv]

theorem range_request_headers_witness :
    parseRangeHeader 1000 "bytes=10-19" = some (10, 19) ∧
    createReadStreamValid 10 19 = true ∧
    handleAudioRequest 1000 "audio/flac" (some "bytes=10-19") =
      AudioResponse.head
        { status := 206
          contentRange := some (rangeContentRange 10 19 1000)
          acceptRanges := "bytes"
          contentLength := (19 : Int) - 10 + 1
          contentType := "audio/flac" } :=
  ⟨rfl, rfl,
   range_request_headers.2 1000 "audio/flac" "bytes=10-19" 10 19 rfl rfl⟩

/-- Claim C10 counterexample: for the parsed but inverted range
`bytes=8-3` the route does NOT answer 206 — `fs.createReadStream`, called
before `writeHead`, throws `ERR_OUT_OF_RANGE` for `start > end` and the
catch answers 500. -/
theorem range_inverted_500_counterexample :
    parseRangeHeader 10 "bytes=8-3" = some (8, 3) ∧
    handleAudioRequest 10 "audio/mpeg" (some "bytes=8-3") = AudioResponse.serverError ∧
    AudioResponse.status (handleAudioRequest 10 "audio/mpeg" (some "bytes=8-3")) = 500 :=
  ⟨rfl, rfl, rfl⟩

/-- Claim C10 (amended): the handler itself never validates or clamps a
parsed numeric range against the file size — whenever the offsets pass the
stream constructor (`0 ≤ start ≤ end`) it answers 206 with
`Content-Length = end - start + 1`, even when `end ≥ fileSize`; but when
`start > end` the stream creation that precedes `writeHead` throws and
the route answers 500 instead of 206; only a missing (or empty) end
component is defaulted to `fileSize - 1`. -/
theorem range_no_clamping :
    (∀ (fileSize : Nat) (mime r : String) (a b : Int),
      parseRangeHeader fileSize r = some (a, b) →
      createReadStreamValid a b = true →
      handleAudioRequest fileSize mime (some r) =
        AudioResponse.head
          { status := 206
            contentRange := some (rangeContentRange a b fileSize)
            acceptRanges := "bytes"
            contentLength := b - a + 1
            contentType := mime }) ∧
    (∀ (fileSize : Nat) (mime r : String) (a b : Int),
      parseRangeHeader fileSize r = some (a, b) →
      createReadStreamValid a b = false →
      handleAudioRequest fileSize mime (some r) = AudioResponse.serverError) ∧
    (∀ (fileSize : Nat) (parts : List String) (a : Int),
      parseIntJS (parts.getD 0 "") = some a →
      (parts.getD 1 "").isEmpty = true →
      rangeEnds fileSize parts = some (a, (fileSize : Int) - 1)) := by
  refine ⟨?_, ?_, ?_⟩
  · intro fileSize mime r a b h hv
    simp [handleAudioRequest, h, hv]
  · intro fileSize mime r a b h hv
    simp [handleAudioRequest, h, hv]
  · intro fileSize parts a h1 h2
    simp only [List.getD, List.get?_eq_getElem?] at h1 h2
    simp [rangeEnds, h1, h2]

theorem range_no_clamping_witness :
    (handleAudioRequest 10 "audio/mpeg" (some "bytes=0-99") =
      AudioResponse.head
        { status := 206
          contentRange := some (rangeContentRange 0 99 10)
          acceptRanges := "bytes"
          contentLength := (99 : Int) - 0 + 1
          contentType := "audio/mpeg" }) ∧
    (handleAudioRequest 10 "audio/mpeg" (some "bytes=500-100") =
      AudioResponse.serverError) ∧
    rangeEnds 10 ["5"] = some (5, (10 : Int) - 1) :=
  ⟨range_no_clamping.1 10 "audio/mpeg" "bytes=0-99" 0 99 rfl rfl,
   range_no_clamping.2.1 10 "audio/mpeg" "bytes=500-100" 500 100 rfl rfl,
   range_no_clamping.2.2 10 ["5"] 5 rfl rfl⟩

/-! ### Claims about `generateSummary` -/

/-- Claim C5 counterexample: an unparseable provider response does NOT
produce placeholder defaults — `JSON.parse` throws inside the `try` block
and `generateSummary` re-throws a wrapped error. -/
theorem generateSummary_malformed_counterexample :
    generateSummary "some transcript" (Except.ok (some "not json")) =
      Except.error "Failed to generate summary: bad number" := rfl

/-- Claim C5 (amended): for any transcript, a response that parses as JSON
with the `summary`/`keywords` fields absent — or an absent/empty response
body, which falls back to the empty JSON object — yields the placeholder
defaults; a response that fails to parse instead makes `generateSummary`
throw the wrapped parse error. -/
theorem generateSummary_defaults (t : String) (content : Option String) :
    (∀ j, jsonParse (effectiveContent content) = Except.ok j →
      jsonLookup j "summary" = none →
      jsonLookup j "keywords" = none →
      generateSummary t (Except.ok content) =
        Except.ok { summary := Json.str "Summary could not be generated", keywords := [] }) ∧
    (∀ e, jsonParse (effectiveContent content) = Except.error e →
      generateSummary t (Except.ok content) =
        Except.error ("Failed to generate summary: " ++ e)) ∧
    (content = none →
      generateSummary t (Except.ok content) =
        Except.ok { summary := Json.str "Summary could not be generated", keywords := [] }) := by
  refine ⟨?_, ?_, ?_⟩
  · intro j hp hs hk
    simp [generateSummary, hp, extractSummary, hs, extractKeywords, hk]
  · intro e hp
    simp [generateSummary, hp]
  · intro hc
    subst hc
    rfl

theorem generateSummary_defaults_witness :
    (generateSummary "t" (Except.ok (some " \x7b \"other\": 1 \x7d ")) =
      Except.ok { summary := Json.str "Summary could not be generated", keywords := [] }) ∧
    (generateSummary "t" (Except.ok (some "oops")) =
      Except.error ("Failed to generate summary: " ++ "bad number")) ∧
    (generateSummary "t" (Except.ok none) =
      Except.ok { summary := Json.str "Summary could not be generated", keywords := [] }) :=
  ⟨(generateSummary_defaults "t" (some " \x7b \"other\": 1 \x7d ")).1
      (Json.obj [("other", Json.num "1")]) rfl rfl rfl,
   (generateSummary_defaults "t" (some "oops")).2.1 "bad number" rfl,
   (generateSummary_defaults "t" none).2.2 rfl⟩

/-! ### Claims about the delete operations -/

/-- Claim C6 counterexample: `deleteTranscriptSegments` returns `true` even
for an identifier with no segments in the store, so it does not report
failure for non-existent identifiers. -/
theorem deleteTranscriptSegments_counterexample :
    mapGet emptyStorage.transcriptSegments "missing-id" = none ∧
    (deleteTranscriptSegments emptyStorage "missing-id").1 = true :=
  ⟨rfl, rfl⟩

/-- Claim C6 (amended): `deleteHighlight` and `deleteAudioContent` return
`true` exactly when the identifier is present (`false` when absent, with
no exception); `deleteTranscriptSegments` returns `true` unconditionally,
whether or not any segment matches. -/
theorem delete_result_semantics :
    (∀ (s : MemStorage) (id : String),
      (deleteHighlight s id).1 = (mapGet s.highlights id).isSome) ∧
    (∀ (s : MemStorage) (id : String),
      (deleteAudioContent s id).1 = (mapGet s.audioContent id).isSome) ∧
    (∀ (s : MemStorage) (audioContentId : String),
      (deleteTranscriptSegments s audioContentId).1 = true) := by
  refine ⟨?_, ?_, ?_⟩
  · intro s id
    simpa [deleteHighlight] using mapDelete_fst s.highlights id
  · intro s id
    simpa [deleteAudioContent] using mapDelete_fst s.audioContent id
  · intro s audioContentId
    rfl

/-! ### Claims about the store queries -/

/-- Claim C7: `getAudioContentByUser` returns exactly the records owned by
the user (a permutation of the owner filter), in descending order of
`lastAccessedAt` (via `recencyKey`), and stably: for every value of the
sort key the output preserves the original insertion order. -/
theorem getAudioContentByUser_spec (s : MemStorage) (userId : String) :
    List.Perm (getAudioContentByUser s userId)
      ((mapValues s.audioContent).filter (fun c => c.userId == userId)) ∧
    (∀ c : AudioContent, c ∈ getAudioContentByUser s userId ↔
      c ∈ (mapValues s.audioContent).filter (fun c2 => c2.userId == userId)) ∧
    List.Sorted recentFirst (getAudioContentByUser s userId) ∧
    (∀ k : Nat, (getAudioContentByUser s userId).filter (fun a => recencyKey a == k) =
      ((mapValues s.audioContent).filter (fun c => c.userId == userId)).filter
        (fun a => recencyKey a == k)) := by
  refine ⟨?_, ?_, ?_, ?_⟩
  · exact List.perm_insertionSort recentFirst _
  · intro c
    exact (List.perm_insertionSort recentFirst _).mem_iff
  · exact List.sorted_insertionSort recentFirst _
  · intro k
    exact insertionSort_filter_recency _ k

/-- Claim C8: `searchAudioContent` returns exactly the user's records for
which the lowercased query occurs in the title, the source, the transcript
text or the summary; in particular the record titled "Lecture 1" with no
source is found by the query "lecture". -/
theorem searchAudioContent_spec :
    (∀ (s : MemStorage) (userId q : String) (c : AudioContent),
      c ∈ searchAudioContent s userId q ↔
        c ∈ mapValues s.audioContent ∧ c.userId = userId ∧
          matchesQuery (lowerStr q) c = true) ∧
    demoContent ∈ searchAudioContent demoStore "user-123" "lecture" := by
  constructor
  · intro s userId q c
    simp [searchAudioContent, List.mem_filter, Bool.and_eq_true, beq_iff_eq, and_assoc]
  · decide

/-! ### Claim about partial updates -/

/-- The merge contract of `updateAudioContent`: every field supplied by the
update is set to the supplied value, every absent field keeps its stored
value. -/
def mergesInto (c : AudioContent) (u : AudioContentUpdate) (m : AudioContent) : Prop :=
  (u.id = none → m.id = c.id) ∧ (∀ v, u.id = some v → m.id = v) ∧
  (u.userId = none → m.userId = c.userId) ∧ (∀ v, u.userId = some v → m.userId = v) ∧
  (u.title = none → m.title = c.title) ∧ (∀ v, u.title = some v → m.title = v) ∧
  (u.source = none → m.source = c.source) ∧ (∀ v, u.source = some v → m.source = v) ∧
  (u.fileName = none → m.fileName = c.fileName) ∧
  (∀ v, u.fileName = some v → m.fileName = v) ∧
  (u.filePath = none → m.filePath = c.filePath) ∧
  (∀ v, u.filePath = some v → m.filePath = v) ∧
  (u.duration = none → m.duration = c.duration) ∧
  (∀ v, u.duration = some v → m.duration = v) ∧
  (u.fileSize = none → m.fileSize = c.fileSize) ∧
  (∀ v, u.fileSize = some v → m.fileSize = v) ∧
  (u.mimeType = none → m.mimeType = c.mimeType) ∧
  (∀ v, u.mimeType = some v → m.mimeType = v) ∧
  (u.transcriptionStatus = none → m.transcriptionStatus = c.transcriptionStatus) ∧
  (∀ v, u.transcriptionStatus = some v → m.transcriptionStatus = v) ∧
  (u.transcriptionText = none → m.transcriptionText = c.transcriptionText) ∧
  (∀ v, u.transcriptionText = some v → m.transcriptionText = v) ∧
  (u.aiSummary = none → m.aiSummary = c.aiSummary) ∧
  (∀ v, u.aiSummary = some v → m.aiSummary = v) ∧
  (u.keywords = none → m.keywords = c.keywords) ∧
  (∀ v, u.keywords = some v → m.keywords = v) ∧
  (u.progress = none → m.progress = c.progress) ∧
  (∀ v, u.progress = some v → m.progress = v) ∧
  (u.createdAt = none → m.createdAt = c.createdAt) ∧
  (∀ v, u.createdAt = some v → m.createdAt = v) ∧
  (u.lastAccessedAt = none → m.lastAccessedAt = c.lastAccessedAt) ∧
  (∀ v, u.lastAccessedAt = some v → m.lastAccessedAt = v)

theorem applyUpdate_merges (c : AudioContent) (u : AudioContentUpdate) :
    mergesInto c u (applyUpdate c u) := by
  unfold mergesInto
  repeat' apply And.intro
  all_goals intros
  all_goals simp [applyUpdate, *]

/-- Claim C9: `updateAudioContent` merges only the supplied fields into the
existing record (leaving every unsupplied field unchanged), stores and
returns the merged record, leaves every other record untouched, and
returns `none` — distinct from any successful result — exactly when the
identifier is absent. -/
theorem updateAudioContent_spec (s : MemStorage) (id : String) (u : AudioContentUpdate) :
    ((updateAudioContent s id u).1 = none ↔ mapGet s.audioContent id = none) ∧
    (mapGet s.audioContent id = none → updateAudioContent s id u = (none, s)) ∧
    (∀ c, mapGet s.audioContent id = some c →
      ∃ m, updateAudioContent s id u =
          (some m, { s with audioContent := mapSet s.audioContent id m }) ∧
        mergesInto c u m ∧
        mapGet (updateAudioContent s id u).2.audioContent id = some m ∧
        (∀ id2, id2 ≠ id →
          mapGet (updateAudioContent s id u).2.audioContent id2 =
            mapGet s.audioContent id2)) := by
  refine ⟨?_, ?_, ?_⟩
  · cases h : mapGet s.audioContent id <;> simp [updateAudioContent, h]
  · intro h
    simp [updateAudioContent, h]
  · intro c h
    refine ⟨applyUpdate c u, updateAudioContent_found u h, applyUpdate_merges c u, ?_, ?_⟩
    · rw [updateAudioContent_found u h]
      exact mapGet_mapSet_self s.audioContent id (applyUpdate c u)
    · intro id2 hne
      rw [updateAudioContent_found u h]
      exact mapGet_mapSet_ne s.audioContent id id2 (applyUpdate c u) hne

/-- The progress-route update: `\x7b progress, lastAccessedAt: new Date() \x7d`. -/
def demoUpdate : AudioContentUpdate :=
  { progress := some 45
    lastAccessedAt := some (some 99) }

theorem updateAudioContent_spec_witness :
    (updateAudioContent demoStore "id1" demoUpdate).1.map AudioContent.progress =
      some 45 ∧
    (updateAudioContent demoStore "id1" demoUpdate).1.map AudioContent.title =
      some "Lecture 1" ∧
    (updateAudioContent demoStore "id1" demoUpdate).1.map AudioContent.lastAccessedAt =
      some (some 99) ∧
    ((updateAudioContent demoStore "id1" demoUpdate).1 = none ↔
      mapGet demoStore.audioContent "id1" = none) := by
  obtain ⟨m, hm, hmerge, hget2, hframe⟩ :=
    (updateAudioContent_spec demoStore "id1" demoUpdate).2.2 demoContent rfl
  obtain ⟨hid0, hidS, huser0, huserS, htitle0, htitleS, hsrc0, hsrcS, hfn0, hfnS,
    hfp0, hfpS, hdur0, hdurS, hfs0, hfsS, hmt0, hmtS, hts0, htsS, htt0, httS,
    has0, hasS, hkw0, hkwS, hpr0, hprS, hca0, hcaS, hla0, hlaS⟩ := hmerge
  have hp : m.progress = 45 := hprS 45 rfl
  have htl : m.title = demoContent.title := htitle0 rfl
  have hl : m.lastAccessedAt = some 99 := hlaS (some 99) rfl
  have hfst : (updateAudioContent demoStore "id1" demoUpdate).1 = some m := by
    rw [hm]
  refine ⟨?_, ?_, ?_, (updateAudioContent_spec demoStore "id1" demoUpdate).1⟩
  · rw [hfst]
    simp [hp]
  · rw [hfst]
    simp [htl, demoContent, createAudioContent, demoInsert]
  · rw [hfst]
    simp [hl]
